import Mathlib

set_option autoImplicit false

namespace Todo

/-! Shallow embedding of the task persistence and mutation core of `todo.py`:
the `Task` data model, the dict codec (`to_dict` / `from_dict`), the store
(`load_tasks` / `save_tasks` over an explicit file-system state), the title
validator with its optional index, and the mutation operations
(`add_task`, `update_task`, `toggle_task_completion`, `delete_task`).
Python exceptions are modelled with `Except` / explicit crash fields; the
interactive `input()` calls become explicit string parameters holding what the
source reads (the source strips them with `.strip()`, modelled by `pyStrip`). -/

/-- ASCII lowercasing of a single character, as Python `str.lower` acts on
ASCII text: `A`..`Z` (codes 65..90) map to `a`..`z` (codes 97..122), every
other character is unchanged. -/
def lowerChar (c : Char) : Char :=
  if 65 ≤ c.toNat ∧ c.toNat ≤ 90 then Char.ofNat (c.toNat + 32) else c

/-- Lowercasing of a string, modelling Python `str.lower()` on ASCII data. -/
def pyLower (s : String) : String := ⟨s.data.map lowerChar⟩

/-- Removal of leading and trailing whitespace from a character list. -/
def stripChars (l : List Char) : List Char :=
  ((l.dropWhile Char.isWhitespace).reverse.dropWhile Char.isWhitespace).reverse

/-- Removal of leading and trailing whitespace, modelling Python `str.strip()`. -/
def pyStrip (s : String) : String := ⟨stripChars s.data⟩

/-- Task priority levels (`Priority` enum in the source). -/
inductive Priority where
  | low
  | medium
  | high
deriving DecidableEq, Repr

/-- String value of a priority (`Priority.value` in the source). -/
def Priority.value : Priority → String
  | .low => "low"
  | .medium => "medium"
  | .high => "high"

/-- Lookup of a priority by its string value. `Priority(s)` in Python raises
`ValueError` when `s` is not one of the three values; that failure is `none`. -/
def Priority.ofValue (s : String) : Option Priority :=
  if s = "low" then some .low
  else if s = "medium" then some .medium
  else if s = "high" then some .high
  else none

/-- A task in the todo list (dataclass `Task` in the source), with the source's
seven fields and their default values. -/
structure Task where
  title : String
  completed : Bool := false
  priority : Priority := .medium
  due_date : Option String := none
  category : String := "general"
  description : Option String := none
  color : Option String := none
deriving DecidableEq, Repr

/-- Dictionary form of a `Task` as produced by `Task.to_dict` (all seven keys
present, `priority` as its string value). -/
structure TaskDict where
  title : String
  completed : Bool
  priority : String
  due_date : Option String
  category : String
  description : Option String
  color : Option String
deriving DecidableEq, Repr

/-- Errors of the core, naming the spec's taxonomy for the `ValueError`s the
source raises (the source carries them as message strings).
`badPriorityValue s` is the `ValueError` raised by `Priority(s)` during
decoding (the spec's `MalformedRecord`). -/
inductive TodoError where
  | emptyTitle
  | duplicateTitle
  | invalidPriority
  | invalidDate
  | invalidCategory
  | indexOutOfRange
  | badPriorityValue (s : String)
deriving DecidableEq, Repr

/-- Encoding of a task to its dictionary form (`Task.to_dict`). -/
def Task.to_dict (t : Task) : TaskDict :=
  { title := t.title
    completed := t.completed
    priority := t.priority.value
    due_date := t.due_date
    category := t.category
    description := t.description
    color := t.color }

/-- Decoding of a dictionary into a task (`Task.from_dict`); an unrecognized
priority string is the uncaught `ValueError` from the `Priority` constructor. -/
def Task.from_dict (d : TaskDict) : Except TodoError Task :=
  match Priority.ofValue d.priority with
  | none => .error (.badPriorityValue d.priority)
  | some p =>
      .ok { title := d.title
            completed := d.completed
            priority := p
            due_date := d.due_date
            category := d.category
            description := d.description
            color := d.color }

/-- Encoding of a collection, as `json.dump` writes the list of task dicts. -/
def encode_tasks (ts : List Task) : List TaskDict := ts.map Task.to_dict

/-- Decoding of a serialized collection: `[Task.from_dict td for td in data]`,
with the first `ValueError` propagating as in Python. -/
def decode_tasks : List TaskDict → Except TodoError (List Task)
  | [] => .ok []
  | d :: ds =>
      match Task.from_dict d with
      | .error e => .error e
      | .ok t =>
          match decode_tasks ds with
          | .error e => .error e
          | .ok ts => .ok (t :: ts)

/-- State of the storage file as `load_tasks` can encounter it: absent
(`FileNotFoundError`), present but not valid JSON (`json.JSONDecodeError`), or
a parsed JSON array of task records. -/
inductive StorageState where
  | missing
  | unreadableJson
  | content (records : List TaskDict)
deriving DecidableEq, Repr

/-- Loading of the collection (`load_tasks`). Only `FileNotFoundError` and
`json.JSONDecodeError` are caught and mapped to the empty list; a `ValueError`
raised by `Task.from_dict` is not caught and propagates. -/
def load_tasks : StorageState → Except TodoError (List Task)
  | .missing => .ok []
  | .unreadableJson => .ok []
  | .content records => decode_tasks records

/-- Insertion into a string-keyed dictionary, modelling Python dict update:
an existing key keeps its position and gets the new value, a new key is
appended. -/
def dictInsert : List (String × Nat) → String → Nat → List (String × Nat)
  | [], k, v => [(k, v)]
  | (k', v') :: rest, k, v =>
      if k' = k then (k', v) :: rest else (k', v') :: dictInsert rest k v

/-- Key membership in a string-keyed dictionary (`key in d` in Python). -/
def dictContains (d : List (String × Nat)) (k : String) : Bool :=
  d.any (fun p => p.1 == k)

/-- Dictionary built from enumerated tasks: `{t.title.lower(): i for (i, t) in pairs}`. -/
def buildIndex (pairs : List (Nat × Task)) : List (String × Nat) :=
  pairs.foldl (fun d p => dictInsert d (pyLower p.2.title) p.1) []

/-- Index of task titles (`create_task_index`): lowercase title to position. -/
def create_task_index (tasks : List Task) : List (String × Nat) :=
  buildIndex tasks.enum

/-- The exclusion index `update_task` builds for its title branch:
`{t.title.lower(): i for i, t in enumerate(tasks) if i != task_num}`. -/
def update_index (tasks : List Task) (task_num : Nat) : List (String × Nat) :=
  buildIndex (tasks.enum.filter (fun p => p.1 != task_num))

/-- Title validation (`validate_task_title`): empty-after-strip titles are
rejected, then the duplicate check runs on the unstripped candidate, either
against the supplied index or by scanning the collection; the stripped title
is returned. -/
def validate_task_title (title : String) (tasks : List Task)
    (task_index : Option (List (String × Nat))) : Except TodoError String :=
  if pyStrip title = "" then .error .emptyTitle
  else
    match task_index with
    | some idx =>
        if dictContains idx (pyLower title) then .error .duplicateTitle
        else .ok (pyStrip title)
    | none =>
        if tasks.any (fun t => pyLower t.title == pyLower title) then .error .duplicateTitle
        else .ok (pyStrip title)

/-- Leap-year test of the Gregorian calendar, as `datetime` uses. -/
def leapYear (y : Nat) : Bool :=
  y % 4 == 0 && (y % 100 != 0 || y % 400 == 0)

/-- Number of days in a month, as `datetime` validates day-of-month. -/
def daysInMonth (y m : Nat) : Nat :=
  if m = 2 then (if leapYear y then 29 else 28)
  else if m = 4 ∨ m = 6 ∨ m = 9 ∨ m = 11 then 30
  else 31

/-- Splitting a character list at `-` separators, as `"-"`-splitting of the
matched string (the separator-free fields of the `%Y-%m-%d` regex). -/
def splitDashes : List Char → List (List Char)
  | [] => [[]]
  | c :: rest =>
      let r := splitDashes rest
      if c = '-' then [] :: r
      else
        match r with
        | [] => [[c]]
        | h :: t => (c :: h) :: t

/-- Numeric value of a non-empty all-digit character run, as Python `int`
reads the groups the `strptime` regex captured; anything else is `none`. -/
def digitsToNat? (l : List Char) : Option Nat :=
  if l = [] then none
  else if l.all Char.isDigit then some (l.foldl (fun n c => n * 10 + (c.toNat - 48)) 0)
  else none

/-- Parsing per `datetime.strptime(s, "%Y-%m-%d")` on ASCII input: the year is
exactly four digits, month and day are one or two digits (`1[0-2]|0[1-9]|[1-9]`
resp. `3[01]|[12]\d|0[1-9]|[1-9]` in CPython's format regex, so zero padding is
optional), the whole string must be consumed, and the `datetime` constructor
then requires a real calendar date with year at least 1. -/
def strptime_Ymd (s : String) : Option (Nat × Nat × Nat) :=
  match splitDashes s.data with
  | [ys, ms, ds] =>
      match digitsToNat? ys, digitsToNat? ms, digitsToNat? ds with
      | some y, some m, some d =>
          if ys.length = 4 ∧ ms.length ≤ 2 ∧ ds.length ≤ 2
             ∧ 1 ≤ m ∧ m ≤ 12 ∧ 1 ≤ d ∧ d ≤ 31 ∧ 1 ≤ y ∧ d ≤ daysInMonth y m
          then some (y, m, d) else none
      | _, _, _ => none
  | _ => none

/-- Modelled from the spec: a strict ISO `YYYY-MM-DD` date (four-digit year,
two-digit zero-padded month and day, valid calendar date). This follows the
spec's words and exists only to compare the spec's date contract with the
source's `strptime`-based check. -/
def is_iso_date_spec (s : String) : Bool :=
  match splitDashes s.data with
  | [ys, ms, ds] =>
      match digitsToNat? ys, digitsToNat? ms, digitsToNat? ds with
      | some y, some m, some d =>
          decide (ys.length = 4 ∧ ms.length = 2 ∧ ds.length = 2
            ∧ 1 ≤ y ∧ 1 ≤ m ∧ m ≤ 12 ∧ 1 ≤ d ∧ d ≤ daysInMonth y m)
      | _, _, _ => false
  | _ => false

/-- The priority prompt mapping `{"1": low, "2": medium, "3": high}` used by
`add_task` and `update_task`; any other choice is `InvalidPriority`. -/
def priority_choice (s : String) : Option Priority :=
  if s = "1" then some .low
  else if s = "2" then some .medium
  else if s = "3" then some .high
  else none

/-- Addition of a task (`add_task`): build the index, strip the entered title,
validate it, map the priority choice (default `"2"`), check the optional due
date with `strptime`, default the category, then append the new task. The
string parameters carry what the source reads with `input()`. -/
def add_task (tasks : List Task) (titleIn priorityIn dueIn catIn : String) :
    Except TodoError (List Task) :=
  let task_index := create_task_index tasks
  let title := pyStrip titleIn
  match validate_task_title title tasks (some task_index) with
  | .error e => .error e
  | .ok _ =>
      let priority := if pyStrip priorityIn = "" then "2" else pyStrip priorityIn
      match priority_choice priority with
      | none => .error .invalidPriority
      | some p =>
          let due_date := pyStrip dueIn
          if due_date ≠ "" ∧ strptime_Ymd due_date = none then .error .invalidDate
          else
            let category := if pyStrip catIn = "" then "general" else pyStrip catIn
            .ok (tasks ++ [{ title := title
                             completed := false
                             priority := p
                             due_date := if due_date = "" then none else some due_date
                             category := category
                             description := none
                             color := none }])

/-- The field chosen in `update_task`'s menu, with the raw string the source
then reads for it. -/
inductive UpdateChoice where
  | title (s : String)
  | priority (s : String)
  | dueDate (s : String)
  | category (s : String)
  | description (s : String)
  | invalidChoice
deriving DecidableEq, Repr

/-- Update of one field of the task at a 1-based position (`update_task`).
The position is checked first (`0 <= task_num < len(tasks)`, never clamped);
the title branch validates against the exclusion index; the due-date branch
runs `strptime` on a non-empty entry; an unrecognized menu choice changes
nothing. -/
def update_task (tasks : List Task) (pos : Int) (choice : UpdateChoice) :
    Except TodoError (List Task) :=
  if 0 ≤ pos - 1 ∧ pos - 1 < (tasks.length : Int) then
    let t := tasks.getD (pos - 1).toNat { title := "" }
    match choice with
    | .title s =>
        let new_title := pyStrip s
        let task_index := update_index tasks (pos - 1).toNat
        match validate_task_title new_title tasks (some task_index) with
        | .error e => .error e
        | .ok _ => .ok (tasks.set (pos - 1).toNat { t with title := new_title })
    | .priority s =>
        match priority_choice (pyStrip s) with
        | none => .error .invalidPriority
        | some p => .ok (tasks.set (pos - 1).toNat { t with priority := p })
    | .dueDate s =>
        let due_date := pyStrip s
        if due_date ≠ "" ∧ strptime_Ymd due_date = none then .error .invalidDate
        else .ok (tasks.set (pos - 1).toNat
          { t with due_date := if due_date = "" then none else some due_date })
    | .category s =>
        let c := pyStrip s
        if c = "" then .error .invalidCategory
        else .ok (tasks.set (pos - 1).toNat { t with category := c })
    | .description s =>
        let d := pyStrip s
        .ok (tasks.set (pos - 1).toNat
          { t with description := if d = "" then none else some d })
    | .invalidChoice => .ok tasks
  else .error .indexOutOfRange

/-- Toggle of the completion flag at a 1-based position
(`toggle_task_completion`), with the same bounds check as delete. -/
def toggle_task_completion (tasks : List Task) (pos : Int) :
    Except TodoError (List Task) :=
  if 0 ≤ pos - 1 ∧ pos - 1 < (tasks.length : Int) then
    let t := tasks.getD (pos - 1).toNat { title := "" }
    .ok (tasks.set (pos - 1).toNat { t with completed := !t.completed })
  else .error .indexOutOfRange

/-- Deletion at a 1-based position (`delete_task`): `task_num = entered - 1`,
accepted only when `0 <= task_num < len(tasks)` (out of range is rejected,
never clamped), and `tasks.pop(task_num)` removes exactly that element. -/
def delete_task (tasks : List Task) (pos : Int) : Except TodoError (List Task) :=
  if 0 ≤ pos - 1 ∧ pos - 1 < (tasks.length : Int) then
    .ok (tasks.eraseIdx (pos - 1).toNat)
  else .error .indexOutOfRange

/-- Result of an operation at the interactive boundary: the source catches
`ValueError` there and keeps the previous collection, so an error leaves the
in-memory list unchanged. -/
def runExcept (tasks : List Task) (r : Except TodoError (List Task)) : List Task :=
  match r with
  | .ok ts => ts
  | .error _ => tasks

/-- The collection after an `add_task` call returns (errors are caught and
leave it unchanged). -/
def run_add (tasks : List Task) (titleIn priorityIn dueIn catIn : String) : List Task :=
  runExcept tasks (add_task tasks titleIn priorityIn dueIn catIn)

/-- The collection after an `update_task` call returns. -/
def run_update (tasks : List Task) (pos : Int) (choice : UpdateChoice) : List Task :=
  runExcept tasks (update_task tasks pos choice)

/-- The collection after a `toggle_task_completion` call returns. -/
def run_toggle (tasks : List Task) (pos : Int) : List Task :=
  runExcept tasks (toggle_task_completion tasks pos)

/-- The collection after a `delete_task` call returns. -/
def run_delete (tasks : List Task) (pos : Int) : List Task :=
  runExcept tasks (delete_task tasks pos)

/-- Content of a file on disk: a parsed JSON array of task records, or the
partially written content a failed `json.dump` leaves behind. -/
inductive FileContent where
  | json (records : List TaskDict)
  | corrupt
deriving DecidableEq, Repr

/-- The file-system slice `save_tasks` touches: the primary `tasks.json`
(`none` when the file does not exist) and the named backup files. -/
structure FileSys where
  primary : Option FileContent
  backups : List (String × FileContent)
deriving DecidableEq, Repr

/-- Content of the named backup file, `none` when no such file exists
(`os.path.exists` is this lookup's `isSome`). -/
def lookupFile : List (String × FileContent) → String → Option FileContent
  | [], _ => none
  | (n, c) :: rest, k => if n = k then some c else lookupFile rest k

/-- Write of a named file (`shutil.copy2` target): overwrite a file of the
same name, otherwise create it. -/
def putFile : List (String × FileContent) → String → FileContent → List (String × FileContent)
  | [], k, v => [(k, v)]
  | (n, c) :: rest, k, v =>
      if n = k then (n, v) :: rest else (n, c) :: putFile rest k v

/-- The messages `save_tasks` prints, in order: the backup warning, the save
error, and the reported restore outcome. -/
inductive SaveEvent where
  | backupWarning
  | saveError
  | restored
  | restoreError
deriving DecidableEq, Repr

/-- The uncaught exception `save_tasks` can raise: the `NameError` from
reading `backup_file` when the backup branch never assigned it. -/
inductive PyExn where
  | nameErrorBackupFile
deriving DecidableEq, Repr

/-- Outcome of a `save_tasks` call: the file system afterwards, the printed
messages, and the uncaught exception if one escaped. -/
structure SaveResult where
  fs : FileSys
  events : List SaveEvent
  crash : Option PyExn
deriving DecidableEq, Repr

/-- The timestamped backup file name `f"{TASK_FILE}.{now}.bak"`. -/
def backupName (ts : String) : String := "tasks.json." ++ ts ++ ".bak"

/-- Saving (`save_tasks`): if the primary file exists, copy it to the
timestamped backup name (a failed copy only warns, and leaves `backup_file`
assigned but the file absent); then write the encoded collection over the
primary file; if that write fails, print the error and, when `backup_file` was
never assigned, raise `NameError`, otherwise restore from the backup if it
exists and report the restore outcome. The three boolean parameters inject the
I/O failures of the backup copy, the write, and the restore copy. -/
def save_tasks (tasks : List Task) (fs : FileSys) (ts : String)
    (backupCopyFails writeFails restoreCopyFails : Bool) : SaveResult :=
  let backupBound : Option String :=
    match fs.primary with
    | some _ => some (backupName ts)
    | none => none
  let fs1 : FileSys :=
    match fs.primary with
    | some c =>
        if backupCopyFails then fs
        else { fs with backups := putFile fs.backups (backupName ts) c }
    | none => fs
  let ev1 : List SaveEvent :=
    match fs.primary with
    | some _ => if backupCopyFails then [.backupWarning] else []
    | none => []
  if writeFails then
    let fs2 : FileSys := { fs1 with primary := some .corrupt }
    match backupBound with
    | none => { fs := fs2, events := ev1 ++ [.saveError], crash := some .nameErrorBackupFile }
    | some bname =>
        match lookupFile fs2.backups bname with
        | some bc =>
            if restoreCopyFails then
              { fs := fs2, events := ev1 ++ [.saveError, .restoreError], crash := none }
            else
              { fs := { fs2 with primary := some bc }
                events := ev1 ++ [.saveError, .restored]
                crash := none }
        | none => { fs := fs2, events := ev1 ++ [.saveError], crash := none }
  else
    { fs := { fs1 with primary := some (.json (encode_tasks tasks)) }
      events := ev1
      crash := none }

/-- No two tasks share a title under case-insensitive comparison (the spec's
uniqueness invariant). -/
def TitlesUnique (tasks : List Task) : Prop :=
  tasks.Pairwise (fun a b => pyLower a.title ≠ pyLower b.title)

/-- Every stored title is non-empty after stripping (the spec's sibling
invariant "title, once set, is never empty after trimming"). -/
def TitlesNonempty (tasks : List Task) : Prop :=
  ∀ t ∈ tasks, pyStrip t.title ≠ ""

/-- The collection invariant the program maintains: case-insensitively unique
titles that are non-empty after stripping. -/
def CollectionInv (tasks : List Task) : Prop :=
  TitlesUnique tasks ∧ TitlesNonempty tasks

/-- A concrete task used in witnesses and counterexamples. -/
def fooTask : Task := { title := "foo" }

/-- A second concrete task used in witnesses and counterexamples. -/
def barTask : Task := { title := "bar" }

/-! Helper lemmas about characters, stripping, and the title index. -/

/-- Whitespace characters are unchanged by ASCII lowercasing. -/
theorem lowerChar_of_isWhitespace {c : Char} (h : c.isWhitespace) : lowerChar c = c := by
  simp only [Char.isWhitespace, Bool.or_eq_true, decide_eq_true_eq] at h
  rcases h with ((h | h) | h) | h <;> subst h <;> decide

/-- Whitespace characters have toNat among the four whitespace codes. -/
theorem toNat_of_isWhitespace {c : Char} (h : c.isWhitespace) :
    c.toNat = 32 ∨ c.toNat = 9 ∨ c.toNat = 13 ∨ c.toNat = 10 := by
  simp only [Char.isWhitespace, Bool.or_eq_true, decide_eq_true_eq] at h
  rcases h with ((h | h) | h) | h <;> subst h <;> simp

/-- ASCII lowercasing preserves whether a character is whitespace. -/
theorem isWhitespace_lowerChar (c : Char) : (lowerChar c).isWhitespace = c.isWhitespace := by
  unfold lowerChar
  split
  · next hrange =>
    have hn : (Char.ofNat (c.toNat + 32)).toNat = c.toNat + 32 := by
      unfold Char.ofNat
      rw [dif_pos]
      · rfl
      · exact Or.inl (by omega)
    have h1 : (Char.ofNat (c.toNat + 32)).isWhitespace = false := by
      cases h2 : (Char.ofNat (c.toNat + 32)).isWhitespace
      · rfl
      · have := toNat_of_isWhitespace h2
        omega
    have h2 : c.isWhitespace = false := by
      cases h3 : c.isWhitespace
      · rfl
      · have := toNat_of_isWhitespace h3
        omega
    rw [h1, h2]
  · rfl

/-- A character list strips to nothing exactly when it is all whitespace. -/
theorem stripChars_eq_nil_iff (l : List Char) :
    stripChars l = [] ↔ ∀ c ∈ l, c.isWhitespace := by
  unfold stripChars
  constructor
  · intro h c hc
    rw [List.reverse_eq_nil_iff, List.dropWhile_eq_nil_iff] at h
    have hdrop : ∀ c ∈ l.dropWhile Char.isWhitespace, c.isWhitespace := by
      intro c hc
      exact h c (List.mem_reverse.mpr hc)
    have := List.takeWhile_append_dropWhile Char.isWhitespace l
    rw [← this] at hc
    rcases List.mem_append.mp hc with htk | hdk
    · exact List.mem_takeWhile_imp htk
    · exact hdrop c hdk
  · intro h
    have h1 : l.dropWhile Char.isWhitespace = [] := List.dropWhile_eq_nil_iff.mpr h
    rw [h1]
    rfl

/-- A string strips to empty exactly when its characters are all whitespace. -/
theorem pyStrip_eq_empty_iff (s : String) :
    pyStrip s = "" ↔ ∀ c ∈ s.data, c.isWhitespace := by
  rw [String.ext_iff]
  exact stripChars_eq_nil_iff s.data

/-- Lowercase-matching a string that strips to empty forces the other string
to strip to empty as well. -/
theorem pyStrip_eq_empty_of_pyLower_eq {s t : String}
    (h : pyLower t = pyLower s) (hs : pyStrip s = "") : pyStrip t = "" := by
  rw [pyStrip_eq_empty_iff] at hs ⊢
  intro c hc
  have hmem : lowerChar c ∈ (pyLower t).data := by
    simp only [pyLower]
    exact List.mem_map_of_mem lowerChar hc
  rw [h] at hmem
  simp only [pyLower] at hmem
  rcases List.mem_map.mp hmem with ⟨c', hc', hcc⟩
  have hw' : c'.isWhitespace := hs c' hc'
  rw [lowerChar_of_isWhitespace hw'] at hcc
  have : (lowerChar c).isWhitespace := hcc ▸ hw'
  rwa [isWhitespace_lowerChar] at this

/-- Key membership after a dictionary insertion. -/
theorem dictContains_dictInsert (d : List (String × Nat)) (k k' : String) (v : Nat) :
    dictContains (dictInsert d k v) k' = (k == k' || dictContains d k') := by
  induction d with
  | nil => simp [dictInsert, dictContains]
  | cons p rest ih =>
    obtain ⟨a, b⟩ := p
    unfold dictInsert
    split
    · next hak =>
      subst hak
      simp only [dictContains, List.any_cons]
      cases hx : (a == k') <;> cases hy : rest.any (fun p => p.1 == k') <;> simp [hx, hy]
    · next hak =>
      simp only [dictContains, List.any_cons] at ih ⊢
      rw [ih]
      cases hx : (a == k') <;> cases hy : (k == k') <;>
        cases hz : rest.any (fun p => p.1 == k') <;> simp [hx, hy, hz]

/-- Key membership in an index built by folding insertions. -/
theorem dictContains_foldl (pairs : List (Nat × Task)) (d : List (String × Nat)) (k : String) :
    dictContains (pairs.foldl (fun d p => dictInsert d (pyLower p.2.title) p.1) d) k
      = (dictContains d k || pairs.any (fun p => pyLower p.2.title == k)) := by
  induction pairs generalizing d with
  | nil => simp
  | cons p ps ih =>
    simp only [List.foldl_cons, List.any_cons]
    rw [ih, dictContains_dictInsert]
    cases hx : (pyLower p.2.title == k) <;> cases hy : dictContains d k <;>
      cases hz : ps.any (fun p => pyLower p.2.title == k) <;> simp [hx, hy, hz]

/-- Key membership in `buildIndex` is a search over the enumerated pairs. -/
theorem dictContains_buildIndex (pairs : List (Nat × Task)) (k : String) :
    dictContains (buildIndex pairs) k = pairs.any (fun p => pyLower p.2.title == k) := by
  unfold buildIndex
  rw [dictContains_foldl]
  simp [dictContains]

/-- Searching the enumeration of a list for a property of the element alone is
searching the list. -/
theorem any_enumFrom (l : List Task) (n : Nat) (f : Task → Bool) :
    (List.enumFrom n l).any (fun p => f p.2) = l.any f := by
  induction l generalizing n with
  | nil => rfl
  | cons t ts ih => simp [List.enumFrom, List.any_cons, ih]

/-- Key membership in `create_task_index` is a case-insensitive title search. -/
theorem dictContains_create_task_index (tasks : List Task) (k : String) :
    dictContains (create_task_index tasks) k = tasks.any (fun t => pyLower t.title == k) := by
  unfold create_task_index
  rw [dictContains_buildIndex]
  show (List.enumFrom 0 tasks).any (fun p => pyLower p.2.title == k)
      = tasks.any (fun t => pyLower t.title == k)
  exact any_enumFrom tasks 0 (fun t => pyLower t.title == k)

/-- A successful validation against the full index means the stripped candidate
is accepted and no stored title matches the candidate case-insensitively. -/
theorem validate_create_index_ok (title : String) (tasks : List Task) (r : String)
    (h : validate_task_title title tasks (some (create_task_index tasks)) = .ok r) :
    pyStrip title ≠ "" ∧ ∀ t ∈ tasks, pyLower t.title ≠ pyLower title := by
  simp only [validate_task_title] at h
  by_cases h0 : pyStrip title = ""
  · rw [if_pos h0] at h
    exact absurd h (by simp)
  · rw [if_neg h0] at h
    refine ⟨h0, ?_⟩
    by_cases hc : dictContains (create_task_index tasks) (pyLower title)
    · rw [if_pos hc] at h
      exact absurd h (by simp)
    · intro t ht hcontra
      apply hc
      rw [dictContains_create_task_index]
      exact List.any_eq_true.mpr ⟨t, ht, beq_iff_eq.mpr hcontra⟩

/-- A successful validation against the exclusion index means the stripped
candidate is accepted and no stored title other than the excluded position
matches the candidate case-insensitively. -/
theorem validate_update_index_ok (title : String) (tasks : List Task) (i : Nat) (r : String)
    (h : validate_task_title title tasks (some (update_index tasks i)) = .ok r) :
    pyStrip title ≠ "" ∧ ∀ (j : Nat) (hj : j < tasks.length), j ≠ i →
      pyLower (tasks.get ⟨j, hj⟩).title ≠ pyLower title := by
  simp only [validate_task_title] at h
  by_cases h0 : pyStrip title = ""
  · rw [if_pos h0] at h
    exact absurd h (by simp)
  · rw [if_neg h0] at h
    refine ⟨h0, ?_⟩
    by_cases hc : dictContains (update_index tasks i) (pyLower title)
    · rw [if_pos hc] at h
      exact absurd h (by simp)
    · intro j hj hne hcontra
      apply hc
      unfold update_index
      rw [dictContains_buildIndex]
      have hjl : j < tasks.enum.length := by
        rw [List.enum_length]
        exact hj
      have hmem : (j, tasks.get ⟨j, hj⟩) ∈ tasks.enum := by
        have h1 : tasks.enum[j] = (j, tasks[j]) := List.getElem_enum tasks j hjl
        have h2 : tasks.enum[j] ∈ tasks.enum := List.getElem_mem hjl
        rw [h1] at h2
        simpa [List.get_eq_getElem] using h2
      refine List.any_eq_true.mpr ⟨(j, tasks.get ⟨j, hj⟩), ?_, ?_⟩
      · exact List.mem_filter.mpr ⟨hmem, by simpa using hne⟩
      · exact beq_iff_eq.mpr hcontra

/-- Replacing a task while keeping its title preserves the collection
invariant. -/
theorem collectionInv_set_same_title (tasks : List Task) (hInv : CollectionInv tasks)
    (i : Nat) (hi : i < tasks.length) (t' : Task)
    (ht : t'.title = (tasks.get ⟨i, hi⟩).title) :
    CollectionInv (tasks.set i t') := by
  obtain ⟨hU, hN⟩ := hInv
  constructor
  · rw [TitlesUnique, List.pairwise_iff_getElem] at hU ⊢
    intro j k hj hk hjk
    have hj' : j < tasks.length := by simpa using hj
    have hk' : k < tasks.length := by simpa using hk
    rw [List.getElem_set, List.getElem_set]
    by_cases hij : i = j
    · subst hij
      rw [if_pos rfl, if_neg (by omega)]
      have : pyLower t'.title = pyLower (tasks[i]).title := by
        rw [ht]
        simp [List.get_eq_getElem]
      rw [this]
      exact hU i k hj' hk' hjk
    · rw [if_neg hij]
      by_cases hik : i = k
      · subst hik
        rw [if_pos rfl]
        have : pyLower t'.title = pyLower (tasks[i]).title := by
          rw [ht]
          simp [List.get_eq_getElem]
        rw [this]
        exact hU j i hj' hk' hjk
      · rw [if_neg hik]
        exact hU j k hj' hk' hjk
  · intro t htm
    rcases List.mem_or_eq_of_mem_set htm with hmem | heq
    · exact hN t hmem
    · subst heq
      have : pyStrip t.title = pyStrip (tasks.get ⟨i, hi⟩).title := by rw [ht]
      rw [this]
      exact hN _ (List.get_mem tasks i hi)

/-- Deleting any position preserves the collection invariant. -/
theorem collectionInv_eraseIdx (tasks : List Task) (hInv : CollectionInv tasks) (i : Nat) :
    CollectionInv (tasks.eraseIdx i) := by
  obtain ⟨hU, hN⟩ := hInv
  constructor
  · exact List.Pairwise.sublist (List.eraseIdx_sublist tasks i) hU
  · intro t htm
    exact hN t ((List.eraseIdx_sublist tasks i).subset htm)

/-- Setting a task with a validated new title at a position preserves the
collection invariant. -/
theorem collectionInv_set_new_title (tasks : List Task) (hInv : CollectionInv tasks)
    (i : Nat) (t' : Task) (hne : pyStrip t'.title ≠ "")
    (hd : ∀ (j : Nat) (hj : j < tasks.length), j ≠ i →
      pyLower (tasks.get ⟨j, hj⟩).title ≠ pyLower t'.title) :
    CollectionInv (tasks.set i t') := by
  obtain ⟨hU, hN⟩ := hInv
  constructor
  · rw [TitlesUnique, List.pairwise_iff_getElem] at hU ⊢
    intro j k hj hk hjk
    have hj' : j < tasks.length := by simpa using hj
    have hk' : k < tasks.length := by simpa using hk
    rw [List.getElem_set, List.getElem_set]
    by_cases hij : i = j
    · subst hij
      rw [if_pos rfl, if_neg (by omega)]
      intro hcontra
      exact hd k hk' (by omega) (by simp [List.get_eq_getElem]; exact hcontra.symm)
    · rw [if_neg hij]
      by_cases hik : i = k
      · subst hik
        rw [if_pos rfl]
        intro hcontra
        exact hd j hj' (by omega) (by simp [List.get_eq_getElem]; exact hcontra)
      · rw [if_neg hik]
        exact hU j k hj' hk' hjk
  · intro t htm
    rcases List.mem_or_eq_of_mem_set htm with hmem | heq
    · exact hN t hmem
    · subst heq
      exact hne

/-- Writing a fresh file name appends it to the directory. -/
theorem putFile_of_lookup_none (bs : List (String × FileContent)) (k : String) (v : FileContent)
    (h : lookupFile bs k = none) : putFile bs k v = bs ++ [(k, v)] := by
  induction bs with
  | nil => rfl
  | cons p rest ih =>
    obtain ⟨n, c⟩ := p
    unfold lookupFile at h
    unfold putFile
    by_cases hnk : n = k
    · rw [if_pos hnk] at h
      exact absurd h (by simp)
    · rw [if_neg hnk] at h
      rw [if_neg hnk, ih h]
      rfl

/-- Writing a file never shrinks the directory. -/
theorem length_le_length_putFile (bs : List (String × FileContent)) (k : String)
    (v : FileContent) : bs.length ≤ (putFile bs k v).length := by
  induction bs with
  | nil => simp [putFile]
  | cons p rest ih =>
    obtain ⟨n, c⟩ := p
    unfold putFile
    by_cases hnk : n = k
    · rw [if_pos hnk]
      simp
    · rw [if_neg hnk]
      simpa using ih

/-- Decoding inverts encoding on a single task. -/
theorem from_dict_to_dict (t : Task) : Task.from_dict (Task.to_dict t) = .ok t := by
  obtain ⟨title, completed, priority, due, cat, descr, col⟩ := t
  cases priority <;> rfl

/-! The claims. -/

/-- C1: decoding the encoded serialized form of any valid in-memory collection
yields the same collection: `decode_tasks (encode_tasks tasks) = .ok tasks`,
the codec round-trip of `Task.to_dict` / `Task.from_dict` as written to and
read back from the JSON file. -/
theorem c1_codec_roundtrip (tasks : List Task) :
    decode_tasks (encode_tasks tasks) = .ok tasks := by
  induction tasks with
  | nil => rfl
  | cons t ts ih =>
    show decode_tasks (Task.to_dict t :: List.map Task.to_dict ts) = Except.ok (t :: ts)
    unfold decode_tasks
    rw [from_dict_to_dict]
    show (match decode_tasks (encode_tasks ts) with
      | Except.error e => Except.error e
      | Except.ok ts' => Except.ok (t :: ts')) = Except.ok (t :: ts)
    rw [ih]

/-- C2: `load_tasks` does return an empty collection when the storage file is
missing or fails JSON parsing, but a stored record with the unrecognized
priority string `"urgent"` makes `Task.from_dict` raise a `ValueError` that
`load_tasks` does not catch (it only catches `FileNotFoundError` and
`json.JSONDecodeError`), so the load raises instead of treating the record or
the load as absent. -/
theorem c2_load_raises_on_bad_priority :
    load_tasks .missing = .ok [] ∧
    load_tasks .unreadableJson = .ok [] ∧
    load_tasks (.content [⟨"x", false, "urgent", none, "general", none, none⟩])
      = .error (.badPriorityValue "urgent") :=
  ⟨rfl, rfl, rfl⟩

/-- C3: when no prior persisted file existed and the write fails, `save_tasks`
crashes with a `NameError` on the unassigned `backup_file` instead of treating
the restore as a no-op; when a backup was created in the invocation, the
failed write is reported and the restore is attempted and reported, restoring
the pre-save content. -/
theorem c3_restore_crashes_without_backup :
    (save_tasks [fooTask] ⟨none, []⟩ "20250214_094052" false true false).crash
        = some .nameErrorBackupFile ∧
    (save_tasks [fooTask] ⟨none, []⟩ "20250214_094052" false true false).events
        = [.saveError] ∧
    (save_tasks [fooTask] ⟨some (.json []), []⟩ "20250214_094052" false true false).crash
        = none ∧
    (save_tasks [fooTask] ⟨some (.json []), []⟩ "20250214_094052" false true false).events
        = [.saveError, .restored] ∧
    (save_tasks [fooTask] ⟨some (.json []), []⟩ "20250214_094052" false true false).fs.primary
        = some (.json []) ∧
    (save_tasks [fooTask] ⟨some (.json []), []⟩ "20250214_094052" false true true).events
        = [.saveError, .restoreError] :=
  ⟨rfl, rfl, rfl, rfl, rfl, rfl⟩

/-- C4 counterexample: a successful `save_tasks` invocation on a state with no
prior persisted file completes without crash or warning and leaves no new
backup file, refuting "every successful invocation of save leaves exactly one
new backup file". -/
theorem c4_first_save_leaves_no_backup :
    (save_tasks [fooTask] ⟨none, []⟩ "20250214_094052" false false false).crash = none ∧
    (save_tasks [fooTask] ⟨none, []⟩ "20250214_094052" false false false).events = [] ∧
    (save_tasks [fooTask] ⟨none, []⟩ "20250214_094052" false false false).fs.primary
        = some (.json (encode_tasks [fooTask])) ∧
    (save_tasks [fooTask] ⟨none, []⟩ "20250214_094052" false false false).fs.backups = [] :=
  ⟨rfl, rfl, rfl, rfl⟩

/-- C4 (amended): a successful `save_tasks` invocation made while a prior
persisted file exists (and whose backup copy succeeds) leaves exactly one new
backup file, a copy of the prior file under the timestamped backup name, and
overwrites the primary file with the encoded collection; when no prior file
exists no backup is created; and no invocation ever removes backups. -/
theorem c4_backup_per_save (tasks : List Task) (fs : FileSys) (ts : String) (c : FileContent)
    (hp : fs.primary = some c)
    (hfresh : lookupFile fs.backups (backupName ts) = none) :
    ((save_tasks tasks fs ts false false false).crash = none ∧
     (save_tasks tasks fs ts false false false).events = [] ∧
     (save_tasks tasks fs ts false false false).fs.backups
        = fs.backups ++ [(backupName ts, c)] ∧
     (save_tasks tasks fs ts false false false).fs.primary
        = some (.json (encode_tasks tasks))) ∧
    ∀ (bf wf rf : Bool),
      fs.backups.length ≤ (save_tasks tasks fs ts bf wf rf).fs.backups.length := by
  constructor
  · refine ⟨?_, ?_, ?_, ?_⟩ <;>
      simp [save_tasks, hp, putFile_of_lookup_none fs.backups (backupName ts) c hfresh]
  · intro bf wf rf
    unfold save_tasks
    rw [hp]
    cases bf
    · simp only [Bool.false_eq_true, if_false]
      cases wf
      · simpa using length_le_length_putFile fs.backups (backupName ts) c
      · simp only
        cases lookupFile (putFile fs.backups (backupName ts) c) (backupName ts) with
        | none => simpa using length_le_length_putFile fs.backups (backupName ts) c
        | some bc =>
          cases rf <;> simpa using length_le_length_putFile fs.backups (backupName ts) c
    · simp only [if_true]
      cases wf
      · simp
      · simp only
        cases lookupFile fs.backups (backupName ts) with
        | none => simp
        | some bc => cases rf <;> simp

/-- C4 witness: the amended statement at a concrete state with a prior
persisted file. -/
theorem c4_backup_per_save_witness :
    (save_tasks [fooTask] ⟨some (.json []), []⟩ "20250214_094052" false false false).fs.backups
        = [] ++ [(backupName "20250214_094052", .json [])] ∧
    (save_tasks [fooTask] ⟨some (.json []), []⟩ "20250214_094052" false false false).crash
        = none := by
  have h := c4_backup_per_save [fooTask] ⟨some (.json []), []⟩ "20250214_094052"
    (.json []) rfl rfl
  exact ⟨h.1.2.2.1, h.1.1⟩

/-- C5 counterexample: with the exclusion index that `update_task` supplies
while updating the task at position 0, the indexed path accepts the candidate
`"foo"` against the collection `[fooTask]`, while the unindexed path rejects
the same candidate as a duplicate, so the two paths do not agree on every
input. -/
theorem c5_index_paths_disagree :
    validate_task_title "foo" [fooTask] (some (update_index [fooTask] 0)) = .ok "foo" ∧
    validate_task_title "foo" [fooTask] none = .error .duplicateTitle :=
  ⟨rfl, rfl⟩

/-- C5 (amended): the indexed and unindexed paths of `validate_task_title`
produce identical outcomes on every candidate and collection when the supplied
index is the full collection index `create_task_index tasks`; the divergence
is confined to the exclusion index built during update, whose excluded
position the unindexed path cannot express. -/
theorem c5_full_index_agrees (title : String) (tasks : List Task) :
    validate_task_title title tasks (some (create_task_index tasks))
      = validate_task_title title tasks none := by
  unfold validate_task_title
  by_cases h0 : pyStrip title = ""
  · simp only [if_pos h0]
  · simp only [if_neg h0, dictContains_create_task_index]

/-- C9: `validate_task_title` compares the untrimmed candidate against stored
titles: with a stored task titled `"foo"`, the candidate `" foo "` passes both
the unindexed and the indexed duplicate check and the validator returns the
trimmed title `"foo"`, which case-insensitively equals the stored title. -/
theorem c9_untrimmed_duplicate_check :
    validate_task_title " foo " [fooTask] none = .ok "foo" ∧
    validate_task_title " foo " [fooTask] (some (create_task_index [fooTask])) = .ok "foo" ∧
    pyLower "foo" = pyLower fooTask.title :=
  ⟨rfl, rfl, rfl⟩

/-- C8: `delete_task` takes a 1-based position; every position outside
`1..length` is rejected with `IndexOutOfRange` and leaves the collection
unchanged, and every valid position removes exactly the task at that position
(the result is the prefix before it together with the suffix after it),
reducing the size by exactly one. -/
theorem c8_delete_position (tasks : List Task) (pos : Int) :
    (¬(1 ≤ pos ∧ pos ≤ (tasks.length : Int)) →
        delete_task tasks pos = .error .indexOutOfRange ∧
        run_delete tasks pos = tasks) ∧
    (1 ≤ pos → pos ≤ (tasks.length : Int) →
        delete_task tasks pos
            = .ok (tasks.take ((pos - 1).toNat) ++ tasks.drop ((pos - 1).toNat + 1)) ∧
        (run_delete tasks pos).length = tasks.length - 1) := by
  constructor
  · intro h
    have hc : ¬(0 ≤ pos - 1 ∧ pos - 1 < (tasks.length : Int)) := by omega
    constructor
    · unfold delete_task
      rw [if_neg hc]
    · unfold run_delete runExcept delete_task
      rw [if_neg hc]
  · intro h1 h2
    have hc : 0 ≤ pos - 1 ∧ pos - 1 < (tasks.length : Int) := ⟨by omega, by omega⟩
    have hlt : (pos - 1).toNat < tasks.length := by omega
    constructor
    · unfold delete_task
      rw [if_pos hc, List.eraseIdx_eq_take_drop_succ]
    · unfold run_delete runExcept delete_task
      rw [if_pos hc]
      show (tasks.eraseIdx ((pos - 1).toNat)).length = tasks.length - 1
      rw [List.length_eraseIdx, if_pos hlt]

/-- C8 witness: deleting position 3 of a two-task collection is rejected and
deleting position 2 removes exactly the second task. -/
theorem c8_delete_position_witness :
    delete_task [fooTask, barTask] 3 = .error .indexOutOfRange ∧
    delete_task [fooTask, barTask] 2 = .ok [fooTask] := by
  have h3 := (c8_delete_position [fooTask, barTask] 3).1 (by decide)
  have h2 := (c8_delete_position [fooTask, barTask] 2).2 (by decide) (by decide)
  exact ⟨h3.1, h2.1.trans (congrArg Except.ok (by decide))⟩

/-- C7 counterexample: `"2025-3-1"` is not an ISO `YYYY-MM-DD` string (the
month and day are not zero-padded to two digits), yet updating a task's
due date to it succeeds, because `strptime` with `%Y-%m-%d` accepts one-digit
months and days; so "updating due_date to a non-ISO string fails with
InvalidDate" is false as stated. -/
theorem c7_nonpadded_date_accepted :
    is_iso_date_spec "2025-3-1" = false ∧
    update_task [fooTask] 1 (.dueDate "2025-3-1")
      = .ok [{ fooTask with due_date := some "2025-3-1" }] :=
  ⟨rfl, rfl⟩

/-- C7 (amended): every validation error of every mutation operation aborts
that operation leaving the in-memory collection unchanged; adding a task with
an empty or whitespace-only title always fails with `EmptyTitle`; and updating
a task's due date to a string the `%Y-%m-%d` parse rejects fails with
`InvalidDate` leaving the collection (hence the due date) unchanged — the
parser also accepts some non-ISO strings with unpadded month or day, which
then succeed. -/
theorem c7_validation_errors_abort (tasks : List Task) :
    (∀ (a b c d : String) (e : TodoError),
        add_task tasks a b c d = .error e → run_add tasks a b c d = tasks) ∧
    (∀ (pos : Int) (choice : UpdateChoice) (e : TodoError),
        update_task tasks pos choice = .error e → run_update tasks pos choice = tasks) ∧
    (∀ (pos : Int) (e : TodoError),
        toggle_task_completion tasks pos = .error e → run_toggle tasks pos = tasks) ∧
    (∀ (pos : Int) (e : TodoError),
        delete_task tasks pos = .error e → run_delete tasks pos = tasks) ∧
    (∀ (a b c d : String), pyStrip a = "" →
        add_task tasks a b c d = .error .emptyTitle) ∧
    (∀ (pos : Int) (s : String), 1 ≤ pos → pos ≤ (tasks.length : Int) →
        pyStrip s ≠ "" → strptime_Ymd (pyStrip s) = none →
        update_task tasks pos (.dueDate s) = .error .invalidDate ∧
        run_update tasks pos (.dueDate s) = tasks) := by
  refine ⟨?_, ?_, ?_, ?_, ?_, ?_⟩
  · intro a b c d e h
    unfold run_add runExcept
    rw [h]
  · intro pos choice e h
    unfold run_update runExcept
    rw [h]
  · intro pos e h
    unfold run_toggle runExcept
    rw [h]
  · intro pos e h
    unfold run_delete runExcept
    rw [h]
  · intro a b c d h
    unfold add_task
    have h2 : pyStrip (pyStrip a) = "" := by rw [h]; rfl
    simp only [validate_task_title, if_pos h2]
  · intro pos s h1 h2 h3 h4
    have hc : 0 ≤ pos - 1 ∧ pos - 1 < (tasks.length : Int) := ⟨by omega, by omega⟩
    have herr : update_task tasks pos (.dueDate s) = .error .invalidDate := by
      unfold update_task
      rw [if_pos hc]
      simp only [if_pos (And.intro h3 h4)]
    refine ⟨herr, ?_⟩
    unfold run_update runExcept
    rw [herr]

/-- C7 witness: the amended statement at concrete inputs — a whitespace-only
title is rejected with `EmptyTitle`, and the due-date update `"03/01/2025"`
is rejected with `InvalidDate` leaving the collection unchanged. -/
theorem c7_validation_errors_abort_witness :
    add_task [fooTask] "  " "2" "" "" = .error .emptyTitle ∧
    update_task [fooTask] 1 (.dueDate "03/01/2025") = .error .invalidDate ∧
    run_update [fooTask] 1 (.dueDate "03/01/2025") = [fooTask] := by
  have h := c7_validation_errors_abort [fooTask]
  have h5 := h.2.2.2.2.1 "  " "2" "" "" (by rfl)
  have h6 := h.2.2.2.2.2 1 "03/01/2025" (by decide) (by decide) (by decide) (by rfl)
  exact ⟨h5, h6.1, h6.2⟩

/-- Inversion of a successful `add_task`: the stripped title was validated
against the full index and the new collection is the old one with the new
task appended, carrying default description and color. -/
theorem add_task_ok_inv (tasks : List Task) (a b c d : String) (ts' : List Task)
    (h : add_task tasks a b c d = .ok ts') :
    (∃ r, validate_task_title (pyStrip a) tasks (some (create_task_index tasks)) = .ok r) ∧
    ∃ (p : Priority) (due : Option String) (cat : String),
      ts' = tasks ++ [{ title := pyStrip a, completed := false, priority := p,
                        due_date := due, category := cat, description := none,
                        color := none }] := by
  simp only [add_task] at h
  split at h
  · exact absurd h (by simp)
  · next r heq =>
    refine ⟨⟨r, heq⟩, ?_⟩
    split at h
    · exact absurd h (by simp)
    · next p heq2 =>
      split at h
      · exact absurd h (by simp)
      · injection h with h2
        exact ⟨p, _, _, h2.symm⟩

/-- Inversion of a successful `update_task`: either nothing changed, or
exactly the addressed position was replaced by a task with the same color
and either the same title or a freshly validated one. -/
theorem update_task_ok_inv (tasks : List Task) (pos : Int) (choice : UpdateChoice)
    (ts' : List Task) (h : update_task tasks pos choice = .ok ts') :
    ts' = tasks ∨
    ∃ (hi : (pos - 1).toNat < tasks.length) (t' : Task),
      ts' = tasks.set (pos - 1).toNat t' ∧
      t'.color = (tasks.get ⟨(pos - 1).toNat, hi⟩).color ∧
      (t'.title = (tasks.get ⟨(pos - 1).toNat, hi⟩).title ∨
        (pyStrip t'.title ≠ "" ∧ ∀ (j : Nat) (hj : j < tasks.length),
          j ≠ (pos - 1).toNat → pyLower (tasks.get ⟨j, hj⟩).title ≠ pyLower t'.title)) := by
  simp only [update_task] at h
  split at h
  case isTrue hb =>
    have hi : (pos - 1).toNat < tasks.length := by omega
    have hgetD : tasks.getD (pos - 1).toNat { title := "" }
        = tasks.get ⟨(pos - 1).toNat, hi⟩ := by
      rw [List.getD_eq_getElem tasks _ hi, List.get_eq_getElem]
    split at h
    · next s =>
      split at h
      · exact absurd h (by simp)
      · next r hv =>
        injection h with h2
        right
        refine ⟨hi, { tasks.getD (pos - 1).toNat { title := "" } with title := pyStrip s },
          h2.symm, by rw [hgetD], Or.inr ?_⟩
        obtain ⟨hne, hd⟩ := validate_update_index_ok (pyStrip s) tasks ((pos - 1).toNat) r hv
        exact ⟨hne, hd⟩
    · next s =>
      split at h
      · exact absurd h (by simp)
      · next p hp =>
        injection h with h2
        right
        exact ⟨hi, { tasks.getD (pos - 1).toNat { title := "" } with priority := p },
          h2.symm, by rw [hgetD], Or.inl (by rw [hgetD])⟩
    · next s =>
      split at h
      · exact absurd h (by simp)
      · injection h with h2
        right
        exact ⟨hi, { tasks.getD (pos - 1).toNat { title := "" } with
            due_date := if pyStrip s = "" then none else some (pyStrip s) },
          h2.symm, by rw [hgetD], Or.inl (by rw [hgetD])⟩
    · next s =>
      split at h
      · exact absurd h (by simp)
      · injection h with h2
        right
        exact ⟨hi, { tasks.getD (pos - 1).toNat { title := "" } with category := pyStrip s },
          h2.symm, by rw [hgetD], Or.inl (by rw [hgetD])⟩
    · next s =>
      injection h with h2
      right
      exact ⟨hi, { tasks.getD (pos - 1).toNat { title := "" } with
          description := if pyStrip s = "" then none else some (pyStrip s) },
        h2.symm, by rw [hgetD], Or.inl (by rw [hgetD])⟩
    · injection h with h2
      exact Or.inl h2.symm
  case isFalse hb => exact absurd h (by simp)

/-- Inversion of a successful `toggle_task_completion`: exactly the addressed
position was replaced, with title and color unchanged. -/
theorem toggle_ok_inv (tasks : List Task) (pos : Int) (ts' : List Task)
    (h : toggle_task_completion tasks pos = .ok ts') :
    ∃ (hi : (pos - 1).toNat < tasks.length) (t' : Task),
      ts' = tasks.set (pos - 1).toNat t' ∧
      t'.color = (tasks.get ⟨(pos - 1).toNat, hi⟩).color ∧
      t'.title = (tasks.get ⟨(pos - 1).toNat, hi⟩).title := by
  simp only [toggle_task_completion] at h
  by_cases hb : 0 ≤ pos - 1 ∧ pos - 1 < (tasks.length : Int)
  · rw [if_pos hb] at h
    have hi : (pos - 1).toNat < tasks.length := by omega
    have hgetD : tasks.getD (pos - 1).toNat { title := "" }
        = tasks.get ⟨(pos - 1).toNat, hi⟩ := by
      rw [List.getD_eq_getElem tasks _ hi, List.get_eq_getElem]
    injection h with h2
    exact ⟨hi, { tasks.getD (pos - 1).toNat { title := "" } with
        completed := !(tasks.getD (pos - 1).toNat { title := "" }).completed },
      h2.symm, by rw [hgetD], by rw [hgetD]⟩
  · rw [if_neg hb] at h
    exact absurd h (by simp)

/-- Inversion of a successful `delete_task`. -/
theorem delete_task_ok_inv (tasks : List Task) (pos : Int) (ts' : List Task)
    (h : delete_task tasks pos = .ok ts') : ts' = tasks.eraseIdx ((pos - 1).toNat) := by
  unfold delete_task at h
  by_cases hb : 0 ≤ pos - 1 ∧ pos - 1 < (tasks.length : Int)
  · rw [if_pos hb] at h
    injection h with h2
    exact h2.symm
  · rw [if_neg hb] at h
    exact absurd h (by simp)

/-- Adding a candidate whose stripped form case-insensitively matches a stored
(nonempty) title fails with `DuplicateTitle`. -/
theorem add_task_duplicate (tasks : List Task) (hN : TitlesNonempty tasks)
    (a b c d : String) (hm : ∃ t ∈ tasks, pyLower t.title = pyLower (pyStrip a)) :
    add_task tasks a b c d = .error .duplicateTitle := by
  obtain ⟨t, ht, hteq⟩ := hm
  have hne : pyStrip (pyStrip a) ≠ "" := by
    intro h0
    exact hN t ht (pyStrip_eq_empty_of_pyLower_eq hteq h0)
  have hc : dictContains (create_task_index tasks) (pyLower (pyStrip a)) = true := by
    rw [dictContains_create_task_index]
    exact List.any_eq_true.mpr ⟨t, ht, beq_iff_eq.mpr hteq⟩
  have hval : validate_task_title (pyStrip a) tasks (some (create_task_index tasks))
      = .error .duplicateTitle := by
    unfold validate_task_title
    rw [if_neg hne]
    simp only [hc, if_true]
  simp only [add_task, hval]

/-- A returning `add_task` call leaves a collection satisfying the invariant. -/
theorem collectionInv_run_add (tasks : List Task) (hInv : CollectionInv tasks)
    (a b c d : String) : CollectionInv (run_add tasks a b c d) := by
  unfold run_add runExcept
  cases h : add_task tasks a b c d with
  | error e => exact hInv
  | ok ts' =>
    obtain ⟨⟨r, hv⟩, p, due, cat, hts⟩ := add_task_ok_inv tasks a b c d ts' h
    obtain ⟨hne, hnodup⟩ := validate_create_index_ok _ _ _ hv
    rw [hts]
    constructor
    · rw [TitlesUnique, List.pairwise_append]
      refine ⟨hInv.1, List.pairwise_singleton _ _, ?_⟩
      intro x hx y hy
      rw [List.mem_singleton] at hy
      subst hy
      exact hnodup x hx
    · intro t htm
      rcases List.mem_append.mp htm with hmem | hnew
      · exact hInv.2 t hmem
      · rw [List.mem_singleton] at hnew
        subst hnew
        exact hne

/-- A returning `update_task` call leaves a collection satisfying the
invariant. -/
theorem collectionInv_run_update (tasks : List Task) (hInv : CollectionInv tasks)
    (pos : Int) (choice : UpdateChoice) : CollectionInv (run_update tasks pos choice) := by
  unfold run_update runExcept
  cases h : update_task tasks pos choice with
  | error e => exact hInv
  | ok ts' =>
    rcases update_task_ok_inv tasks pos choice ts' h with heq | ⟨hi, t', hset, _hcol, htitle⟩
    · rw [heq]
      exact hInv
    · rw [hset]
      rcases htitle with hsame | ⟨hne, hd⟩
      · exact collectionInv_set_same_title tasks hInv _ hi t' hsame
      · exact collectionInv_set_new_title tasks hInv _ t' hne hd

/-- A returning `toggle_task_completion` call leaves a collection satisfying
the invariant. -/
theorem collectionInv_run_toggle (tasks : List Task) (hInv : CollectionInv tasks)
    (pos : Int) : CollectionInv (run_toggle tasks pos) := by
  unfold run_toggle runExcept
  cases h : toggle_task_completion tasks pos with
  | error e => exact hInv
  | ok ts' =>
    obtain ⟨hi, t', hset, _hcol, hsame⟩ := toggle_ok_inv tasks pos ts' h
    rw [hset]
    exact collectionInv_set_same_title tasks hInv _ hi t' hsame

/-- A returning `delete_task` call leaves a collection satisfying the
invariant. -/
theorem collectionInv_run_delete (tasks : List Task) (hInv : CollectionInv tasks)
    (pos : Int) : CollectionInv (run_delete tasks pos) := by
  unfold run_delete runExcept
  cases h : delete_task tasks pos with
  | error e => exact hInv
  | ok ts' =>
    rw [delete_task_ok_inv tasks pos ts' h]
    exact collectionInv_eraseIdx tasks hInv _

/-- C6: for every collection satisfying the program's invariant — titles
case-insensitively unique, and (as the spec's sibling invariant states)
non-empty after stripping — adding a task whose stripped title
case-insensitively matches an existing task's title always fails with
`DuplicateTitle` and leaves the collection unchanged, and every mutation
operation (add, every update choice, toggle, delete) preserves the
invariant. -/
theorem c6_unique_titles (tasks : List Task) (hInv : CollectionInv tasks) :
    (∀ (a b c d : String), (∃ t ∈ tasks, pyLower t.title = pyLower (pyStrip a)) →
        add_task tasks a b c d = .error .duplicateTitle ∧
        run_add tasks a b c d = tasks) ∧
    (∀ (a b c d : String), CollectionInv (run_add tasks a b c d)) ∧
    (∀ (pos : Int) (choice : UpdateChoice), CollectionInv (run_update tasks pos choice)) ∧
    (∀ pos : Int, CollectionInv (run_toggle tasks pos)) ∧
    (∀ pos : Int, CollectionInv (run_delete tasks pos)) := by
  refine ⟨?_, ?_, ?_, ?_, ?_⟩
  · intro a b c d hm
    have herr := add_task_duplicate tasks hInv.2 a b c d hm
    refine ⟨herr, ?_⟩
    unfold run_add runExcept
    rw [herr]
  · exact collectionInv_run_add tasks hInv
  · exact collectionInv_run_update tasks hInv
  · exact collectionInv_run_toggle tasks hInv
  · exact collectionInv_run_delete tasks hInv

/-- C6 witness: on the singleton collection `[fooTask]`, adding `" FOO "`
fails with `DuplicateTitle` and leaves the collection unchanged, and deletion
preserves the invariant. -/
theorem c6_unique_titles_witness :
    add_task [fooTask] " FOO " "2" "" "" = .error .duplicateTitle ∧
    run_add [fooTask] " FOO " "2" "" "" = [fooTask] ∧
    CollectionInv (run_delete [fooTask] 1) := by
  have hInv : CollectionInv [fooTask] := by
    constructor
    · exact List.pairwise_singleton _ _
    · intro t ht
      rw [List.mem_singleton] at ht
      subst ht
      decide
  have h := c6_unique_titles [fooTask] hInv
  have hd := h.1 " FOO " "2" "" "" ⟨fooTask, List.mem_singleton.mpr rfl, by decide⟩
  exact ⟨hd.1, hd.2, h.2.2.2.2 1⟩

/-- Mapping a field over a positional replacement that does not change the
field is the identity on the mapped list. -/
theorem map_color_set_same (tasks : List Task) (i : Nat) (hi : i < tasks.length) (t' : Task)
    (h : t'.color = (tasks.get ⟨i, hi⟩).color) :
    (tasks.set i t').map Task.color = tasks.map Task.color := by
  rw [List.map_set]
  apply List.ext_getElem
  · simp
  · intro j hj1 hj2
    rw [List.getElem_set]
    by_cases hij : i = j
    · subst hij
      rw [if_pos rfl, h]
      simp [List.get_eq_getElem]
    · rw [if_neg hij]

/-- Mapping commutes with deleting a position. -/
theorem map_color_eraseIdx (tasks : List Task) (i : Nat) :
    (tasks.eraseIdx i).map Task.color = (tasks.map Task.color).eraseIdx i := by
  simp [List.eraseIdx_eq_take_drop_succ, List.map_take, List.map_drop]

/-- C10: every `Task` carries the seventh optional field `color`, defaulting
to `none`; `to_dict` writes it and `from_dict` restores it, so it is preserved
across every encode/decode round-trip; and no mutation operation ever sets it:
add appends a task with `color = none` and preserves existing colors, update
(every choice) and toggle preserve every task's color, and delete only removes
the deleted entry from the color list. -/
theorem c10_color_field :
    (∀ t : Task, (Task.to_dict t).color = t.color ∧ Task.from_dict (Task.to_dict t) = .ok t) ∧
    ({ title := "x" } : Task).color = none ∧
    (∀ (tasks : List Task) (a b c d : String) (ts' : List Task),
        add_task tasks a b c d = .ok ts' →
        ts'.map Task.color = tasks.map Task.color ++ [none]) ∧
    (∀ (tasks : List Task) (pos : Int) (choice : UpdateChoice) (ts' : List Task),
        update_task tasks pos choice = .ok ts' →
        ts'.map Task.color = tasks.map Task.color) ∧
    (∀ (tasks : List Task) (pos : Int) (ts' : List Task),
        toggle_task_completion tasks pos = .ok ts' →
        ts'.map Task.color = tasks.map Task.color) ∧
    (∀ (tasks : List Task) (pos : Int) (ts' : List Task),
        delete_task tasks pos = .ok ts' →
        ts'.map Task.color = (tasks.map Task.color).eraseIdx ((pos - 1).toNat)) := by
  refine ⟨?_, rfl, ?_, ?_, ?_, ?_⟩
  · intro t
    exact ⟨rfl, from_dict_to_dict t⟩
  · intro tasks a b c d ts' h
    obtain ⟨_, p, due, cat, hts⟩ := add_task_ok_inv tasks a b c d ts' h
    rw [hts]
    simp
  · intro tasks pos choice ts' h
    rcases update_task_ok_inv tasks pos choice ts' h with heq | ⟨hi, t', hset, hcol, _⟩
    · rw [heq]
    · rw [hset]
      exact map_color_set_same tasks _ hi t' hcol
  · intro tasks pos ts' h
    obtain ⟨hi, t', hset, hcol, _⟩ := toggle_ok_inv tasks pos ts' h
    rw [hset]
    exact map_color_set_same tasks _ hi t' hcol
  · intro tasks pos ts' h
    rw [delete_task_ok_inv tasks pos ts' h]
    exact map_color_eraseIdx tasks _

/-- C10 witness: the color contract at concrete inputs — a fresh add appends
`none` to the color list, and deleting position 2 erases index 1 of it. -/
theorem c10_color_field_witness :
    [({ title := "x", priority := .medium, category := "general" } : Task)].map Task.color
        = ([] : List Task).map Task.color ++ [none] ∧
    [fooTask].map Task.color
        = ([fooTask, barTask].map Task.color).eraseIdx (((2 : Int) - 1).toNat) := by
  constructor
  · exact c10_color_field.2.2.1 [] "x" "2" "" ""
      [{ title := "x", priority := .medium, category := "general" }] (by rfl)
  · exact c10_color_field.2.2.2.2.2 [fooTask, barTask] 2 [fooTask] (by rfl)

end Todo
